import Mathlib

/-!
# Image homography wrappers of `db_image_homography.h`

A shallow embedding of the two functions that `db_image_homography.h` defines
inline, `db_StitchSimilarity2D` and `db_StitchCameraRotation_2Points`, and the
properties of them that the specification states.

Modelling conventions.

* `double` is an arbitrary number type `α`; the definitions only use the
  operations the source uses (`*`, the literal `1.0`, and the `0` that
  `db_Zero2` stores).  Theorems that need algebra say which structure on `α`
  they assume (exact arithmetic).
* `int` is `Int`.
* A fixed-size buffer `double H[9]` is a function `Fin 9 → α`; an assignment
  `H[i]=v` is `Function.update H i v`.  Distinct buffers do not overlap.
* The point arguments are pointers that the wrappers never dereference, so
  their type `P` is a parameter; the memory that is reachable through them is
  a value of a parameter type `W`.
* The solvers `db_StitchSimilarity2DRaw` and `db_StitchSimilarity3DRaw` have no
  body in this header.  They are parameters: a solver maps its value
  arguments and the contents of the memory it gets pointers to (the three
  output buffers and the point memory) to the new contents of that memory.
* Uninitialised locals hold indeterminate values, which are an explicit
  argument of the embedded function.
* Every call of a solver is recorded, with the arguments it was given, in the
  `calls` field of the result.  What the solver is called with is stated
  through the solver itself: the result is what the solver returns on those
  arguments, for every solver.
-/

namespace DbImageHomography

/-! ## The raw similarity solvers (declarations) -/

/-- The value arguments of `db_StitchSimilarity2DRaw` (lines 155-157), in the
declared order after the three output pointers: `Xp`, `X`, `nr_points`,
`orientation_preserving`, `allow_scaling`, `allow_rotation`,
`allow_translation`.  `A` is the type of the `double**` arguments. -/
structure SimArgs (A : Type) where
  Xp : A
  X : A
  nr_points : Int
  orientation_preserving : Int
  allow_scaling : Int
  allow_rotation : Int
  allow_translation : Int

/-- The memory `db_StitchSimilarity2DRaw` receives pointers to: `*scale`,
`R[4]`, `t[2]` and the point memory behind `Xp` and `X`. -/
structure Sim2DMem (α W : Type) where
  scale : α
  R : Fin 4 → α
  t : Fin 2 → α
  pts : W

/-- A 2D raw solver `db_StitchSimilarity2DRaw`: from its arguments and the
memory at the call to the memory at its return. -/
abbrev Sim2DRaw (α P W : Type) := SimArgs P → Sim2DMem α W → Sim2DMem α W

/-- The memory `db_StitchSimilarity3DRaw` receives pointers to: `*scale`,
`R[9]`, `t[3]` and the point memory behind the pointers in `Xp` and `X`. -/
structure Sim3DMem (α W : Type) where
  scale : α
  R : Fin 9 → α
  t : Fin 3 → α
  pts : W

/-- Modelled from the spec: the declaration of `db_StitchSimilarity3DRaw`
lives in `db_framestitching.h`, which is not among the sources.  The spec has
one Similarity Solver with the options allow scaling, allow rotation, allow
translation and orientation-preserving; its 3D entry point is taken to have
the parameter list of the 2D one (lines 155-157), which the call on line 88
matches in number and kind: `scale`, `R`, `t`, then `Xp`, `X`, `nr_points`,
`orientation_preserving`, `allow_scaling`, `allow_rotation`,
`allow_translation`.  `Xp` and `X` are arrays of pointers to points (`P`); a
solver maps its arguments and the memory at the call to the memory at its
return. -/
abbrev Sim3DRaw (α P W : Type) := SimArgs (List P) → Sim3DMem α W → Sim3DMem α W

/-! ## Vector primitive -/

/-- Modelled from the spec: `db_Zero2` is defined in `db_utilities.h`, which is
not among the sources; the spec (4.1) has it as the fixed-size operation that
zeroes a 2-vector.  Called on the pointer `buf+off` it stores `0` in
`buf[off]` and `buf[off+1]`. -/
def db_Zero2 {α : Type} [Zero α] {n : Nat} (buf : Fin n → α) (off : Nat)
    (h : off + 1 < n) : Fin n → α :=
  Function.update (Function.update buf ⟨off, Nat.lt_of_succ_lt h⟩ 0) ⟨off + 1, h⟩ 0

/-! ## `db_StitchCameraRotation_2Points` (lines 74-89) -/

/-- The indeterminate initial contents of the locals
`double* x[2]; double* xp[2]; double scale,t[3];`. -/
structure RotLocals (α P : Type) where
  x : Fin 2 → P
  xp : Fin 2 → P
  scale : α
  t : Fin 3 → α

/-- What a call of `db_StitchCameraRotation_2Points` leaves behind: the solver
calls it made (arguments and memory at the call), the buffer `R` and the point
memory.  The locals are gone. -/
structure RotResult (α P W : Type) where
  calls : List (SimArgs (List P) × Sim3DMem α W)
  R : Fin 9 → α
  pts : W

/-- The function `db_StitchCameraRotation_2Points`: `R` is the caller's buffer
as it is at the call, `loc` the initial contents of the locals, `pts` the
point memory. -/
def db_StitchCameraRotation_2Points {α P W : Type}
    (raw : Sim3DRaw α P W) (loc : RotLocals α P) (pts : W)
    (R : Fin 9 → α) (x1 x2 xp1 xp2 : P) : RotResult α P W :=
  -- x[0]=x1;
  let x := Function.update loc.x 0 x1
  -- x[1]=x2;
  let x := Function.update x 1 x2
  -- xp[0]=xp1;
  let xp := Function.update loc.xp 0 xp1
  -- xp[1]=xp2;
  let xp := Function.update xp 1 xp2
  -- db_StitchSimilarity3DRaw(&scale,R,t,xp,x,2,1,0,1,0);
  let args : SimArgs (List P) := ⟨List.ofFn xp, List.ofFn x, 2, 1, 0, 1, 0⟩
  let mem : Sim3DMem α W := ⟨loc.scale, R, loc.t, pts⟩
  let out := raw args mem
  ⟨[(args, mem)], out.R, out.pts⟩

/-! ## `db_StitchSimilarity2D` (lines 169-181) -/

/-- The indeterminate initial contents of the locals `double s,R[4],t[2];`. -/
structure Sim2DLocals (α : Type) where
  s : α
  R : Fin 4 → α
  t : Fin 2 → α

/-- The memory the solver is called on by `db_StitchSimilarity2D`: the locals
behind `&s`, `R`, `t` and the point memory. -/
def sim2DCallMem {α W : Type} (loc : Sim2DLocals α) (pts : W) : Sim2DMem α W :=
  ⟨loc.s, loc.R, loc.t, pts⟩

/-- What a call of `db_StitchSimilarity2D` leaves behind: the solver calls it
made (arguments and memory at the call), the buffer `H` and the point
memory.  The locals are gone. -/
structure Sim2DResult (α P W : Type) where
  calls : List (SimArgs P × Sim2DMem α W)
  H : Fin 9 → α
  pts : W

/-- The function `db_StitchSimilarity2D`: `H` is the caller's buffer as it is
at the call, `loc` the initial contents of the locals, `pts` the point
memory. -/
def db_StitchSimilarity2D {α P W : Type} [Mul α] [Zero α] [One α]
    (raw : Sim2DRaw α P W) (loc : Sim2DLocals α) (pts : W)
    (H : Fin 9 → α) (Xp X : P) (nr_points : Int) (orientation_preserving : Int)
    (allow_scaling : Int) (allow_rotation : Int) (allow_translation : Int) :
    Sim2DResult α P W :=
  -- db_StitchSimilarity2DRaw(&s,R,t,Xp,X,nr_points,orientation_preserving,
  --     allow_scaling,allow_rotation,allow_translation);
  let args : SimArgs P :=
    ⟨Xp, X, nr_points, orientation_preserving, allow_scaling, allow_rotation,
      allow_translation⟩
  let mem : Sim2DMem α W := sim2DCallMem loc pts
  let out := raw args mem
  let s := out.scale
  let R := out.R
  let t := out.t
  -- H[0]=s*R[0]; H[1]=s*R[1]; H[2]=t[0];
  let H := Function.update H 0 (s * R 0)
  let H := Function.update H 1 (s * R 1)
  let H := Function.update H 2 (t 0)
  -- H[3]=s*R[2]; H[4]=s*R[3]; H[5]=t[1];
  let H := Function.update H 3 (s * R 2)
  let H := Function.update H 4 (s * R 3)
  let H := Function.update H 5 (t 1)
  -- db_Zero2(H+6);
  let H := db_Zero2 H 6 (by decide)
  -- H[8]=1.0;
  let H := Function.update H 8 1
  ⟨[(args, mem)], H, out.pts⟩

/-! ## Default arguments (lines 156-157 and 169-170) -/

/-- A call `db_StitchSimilarity2DRaw(scale,R,t,Xp,X,nr_points,...)` in which
each of the four trailing arguments is written (`some v`) or left out
(`none`).  An argument that is left out takes the default of the declaration:
`orientation_preserving=1`, `allow_scaling=1`, `allow_rotation=1`,
`allow_translation=1`. -/
def db_StitchSimilarity2DRaw_call {α P W : Type} (raw : Sim2DRaw α P W)
    (mem : Sim2DMem α W) (Xp X : P) (nr_points : Int)
    (orientation_preserving allow_scaling allow_rotation allow_translation : Option Int) :
    Sim2DMem α W :=
  raw ⟨Xp, X, nr_points, orientation_preserving.getD 1, allow_scaling.getD 1,
    allow_rotation.getD 1, allow_translation.getD 1⟩ mem

/-- A call `db_StitchSimilarity2D(H,Xp,X,nr_points,...)` in which each of the
four trailing arguments is written (`some v`) or left out (`none`).  An
argument that is left out takes the default of the declaration:
`orientation_preserving=1`, `allow_scaling=1`, `allow_rotation=1`,
`allow_translation=1`. -/
def db_StitchSimilarity2D_call {α P W : Type} [Mul α] [Zero α] [One α]
    (raw : Sim2DRaw α P W) (loc : Sim2DLocals α) (pts : W)
    (H : Fin 9 → α) (Xp X : P) (nr_points : Int)
    (orientation_preserving allow_scaling allow_rotation allow_translation : Option Int) :
    Sim2DResult α P W :=
  db_StitchSimilarity2D raw loc pts H Xp X nr_points (orientation_preserving.getD 1)
    (allow_scaling.getD 1) (allow_rotation.getD 1) (allow_translation.getD 1)

/-! ## Matrices held by the buffers

The spec (3, 6) has every transform as a dense row-major matrix. -/

/-- The 3×3 matrix a row-major buffer `H[9]` holds. -/
def toMatrix3 {α : Type} (H : Fin 9 → α) : Matrix (Fin 3) (Fin 3) α :=
  !![H 0, H 1, H 2; H 3, H 4, H 5; H 6, H 7, H 8]

/-- The upper-left 2×2 block of the matrix a row-major buffer `H[9]` holds. -/
def upperLeft2 {α : Type} (H : Fin 9 → α) : Matrix (Fin 2) (Fin 2) α :=
  !![H 0, H 1; H 3, H 4]

/-- The 2×2 matrix a row-major buffer `R[4]` holds. -/
def toMatrix2 {α : Type} (R : Fin 4 → α) : Matrix (Fin 2) (Fin 2) α :=
  !![R 0, R 1; R 2, R 3]

/-! ## Sample solvers and inputs

Concrete solvers over `ℚ`, used to instantiate the theorems below. -/

/-- A 2D solver that honours the flags: scale `2`, a quarter turn and the
translation `(3,5)` where the flag allows it, and `1`, the identity and
`(0,0)` where it does not.  It leaves the point memory alone. -/
def sampleRaw2D : Sim2DRaw ℚ Nat Unit := fun a m =>
  ⟨if a.allow_scaling = 0 then 1 else 2,
   if a.allow_rotation = 0 then ![1, 0, 0, 1] else ![0, -1, 1, 0],
   if a.allow_translation = 0 then ![0, 0] else ![3, 5],
   m.pts⟩

/-- Initial contents of the locals of `db_StitchSimilarity2D` in the samples. -/
def sampleLocals2D : Sim2DLocals ℚ := ⟨7, ![7, 7, 7, 7], ![7, 7]⟩

/-- Other initial contents of the locals of `db_StitchSimilarity2D`. -/
def sampleLocals2D_b : Sim2DLocals ℚ := ⟨9, ![8, 9, 8, 9], ![9, 8]⟩

/-- A 3D solver that writes the identity rotation, scale `1` and translation
`0` and leaves the point memory alone. -/
def sampleRaw3D : Sim3DRaw ℚ Nat Unit := fun _ m =>
  ⟨1, ![1, 0, 0, 0, 1, 0, 0, 0, 1], ![0, 0, 0], m.pts⟩

/-- A 3D solver that writes the same rotation as `sampleRaw3D` and another
scale and translation. -/
def sampleRaw3D_b : Sim3DRaw ℚ Nat Unit := fun _ m =>
  ⟨4, ![1, 0, 0, 0, 1, 0, 0, 0, 1], ![5, 6, 7], m.pts⟩

/-- Initial contents of the locals of `db_StitchCameraRotation_2Points` in the
samples. -/
def sampleRotLocals : RotLocals ℚ Nat := ⟨![90, 91], ![92, 93], 7, ![7, 7, 7]⟩

/-- Initial contents of the locals of `db_StitchCameraRotation_2Points` over
the integers. -/
def sampleRotLocalsInt : RotLocals Int Nat := ⟨![90, 91], ![92, 93], 7, ![7, 7, 7]⟩

/-- A 3D solver that shows what it is called with: it writes its arguments
`nr_points`, `orientation_preserving`, `allow_scaling`, `allow_rotation`,
`allow_translation`, `Xp[0]`, `Xp[1]`, `X[0]`, `X[1]`, in this order, into the
nine entries of `R`. -/
def echoRaw3D : Sim3DRaw Int Nat Unit := fun a m =>
  ⟨m.scale,
   ![a.nr_points, a.orientation_preserving, a.allow_scaling, a.allow_rotation,
     a.allow_translation, Int.ofNat (a.Xp.getD 0 0), Int.ofNat (a.Xp.getD 1 0),
     Int.ofNat (a.X.getD 0 0), Int.ofNat (a.X.getD 1 0)],
   m.t, m.pts⟩

/-- Where `echoRaw3D` writes the `k`-th of the four trailing arguments of the
call, the flags: entry `k+1` of `R`. -/
def trailingSlot (k : Fin 4) : Fin 9 := ⟨k.1 + 1, by omega⟩

/-- A 3D solver that writes the quarter turn about the third axis, which takes
`(1,0,0)` to `(0,1,0)` and `(0,1,0)` to `(-1,0,0)`. -/
def quarterTurnRaw3D : Sim3DRaw ℚ Nat Unit := fun _ m =>
  ⟨1, ![0, -1, 0, 1, 0, 0, 0, 0, 1], ![0, 0, 0], m.pts⟩

/-- The points behind the sample pointers: `10` and `11` are the image 1
points `(1,0,0)` and `(0,1,0)`, `20` and `21` the image 2 points `(0,1,0)` and
`(-1,0,0)`. -/
def samplePoint (p : Nat) : Fin 3 → ℚ :=
  if p = 10 then ![1, 0, 0]
  else if p = 11 then ![0, 1, 0]
  else if p = 20 then ![0, 1, 0]
  else if p = 21 then ![-1, 0, 0]
  else ![0, 0, 0]

/-- The reading of `xp ~ R x` in the samples: the point behind `xp` is the
rotation matrix held by `R` times the point behind `x`. -/
def sampleFit (R : Fin 9 → ℚ) (_ : Unit) (xp x : Nat) : Prop :=
  samplePoint xp = (toMatrix3 R).mulVec (samplePoint x)

/-! ## Doubles with their special values

The definitions above are generic in the number type.  `Ieee` is a number
type with the special values of IEEE 754 doubles, to run them where a product
is not the exact one. -/

/-- Finite values (integers here: rounding plays no part), the two infinities
and NaN. -/
inductive Ieee where
  | fin (v : Int)
  | pinf
  | ninf
  | nan
deriving DecidableEq

/-- The IEEE 754 product: NaN times anything is NaN, zero times an infinity is
NaN, and an infinity times a non-zero value is the infinity with the product
of the signs. -/
def Ieee.mul : Ieee → Ieee → Ieee
  | .nan, _ => .nan
  | _, .nan => .nan
  | .fin a, .fin b => .fin (a * b)
  | .fin a, .pinf => if a = 0 then .nan else if 0 < a then .pinf else .ninf
  | .fin a, .ninf => if a = 0 then .nan else if 0 < a then .ninf else .pinf
  | .pinf, .fin b => if b = 0 then .nan else if 0 < b then .pinf else .ninf
  | .ninf, .fin b => if b = 0 then .nan else if 0 < b then .ninf else .pinf
  | .pinf, .pinf => .pinf
  | .pinf, .ninf => .ninf
  | .ninf, .pinf => .ninf
  | .ninf, .ninf => .pinf

instance : Zero Ieee := ⟨.fin 0⟩

instance : MulOneClass Ieee where
  one := .fin 1
  mul := Ieee.mul
  one_mul := by
    intro a
    show Ieee.mul (.fin 1) a = a
    cases a <;> simp [Ieee.mul]
  mul_one := by
    intro a
    show Ieee.mul a (.fin 1) = a
    cases a <;> simp [Ieee.mul]

/-- A 2D solver over `Ieee` that honours the flags as documented (scale `1`,
`R` the identity, `t = (0,0)` where the flag is `0`) and writes an infinite
scale where scaling is allowed.  It leaves the point memory alone. -/
def infiniteScaleRaw2D : Sim2DRaw Ieee Nat Unit := fun a m =>
  ⟨if a.allow_scaling = 0 then 1 else .pinf,
   if a.allow_rotation = 0 then ![1, 0, 0, 1] else ![0, .fin (-1), 1, 0],
   if a.allow_translation = 0 then ![0, 0] else ![.fin 3, .fin 5],
   m.pts⟩

/-- Initial contents of the locals of `db_StitchSimilarity2D` over `Ieee`. -/
def sampleLocalsIeee : Sim2DLocals Ieee := ⟨.nan, ![.nan, .nan, .nan, .nan], ![.nan, .nan]⟩

/-! ## Shared lemmas -/

section Lemmas

variable {α P W : Type}

theorem sim2D_H_eq [Mul α] [Zero α] [One α]
    (raw : Sim2DRaw α P W) (loc : Sim2DLocals α) (pts : W)
    (H : Fin 9 → α) (Xp X : P) (n op sc ro tr : Int) (o : Sim2DMem α W)
    (ho : o = raw ⟨Xp, X, n, op, sc, ro, tr⟩ (sim2DCallMem loc pts)) :
    (db_StitchSimilarity2D raw loc pts H Xp X n op sc ro tr).H =
      ![o.scale * o.R 0, o.scale * o.R 1, o.t 0,
        o.scale * o.R 2, o.scale * o.R 3, o.t 1,
        0, 0, 1] := by
  subst ho
  funext i
  fin_cases i <;>
    simp [db_StitchSimilarity2D, db_Zero2, Function.update] <;> rfl

theorem toMatrix3_sim2D [Mul α] [Zero α] [One α]
    (raw : Sim2DRaw α P W) (loc : Sim2DLocals α) (pts : W)
    (H : Fin 9 → α) (Xp X : P) (n op sc ro tr : Int) (o : Sim2DMem α W)
    (ho : o = raw ⟨Xp, X, n, op, sc, ro, tr⟩ (sim2DCallMem loc pts)) :
    toMatrix3 (db_StitchSimilarity2D raw loc pts H Xp X n op sc ro tr).H =
      !![o.scale * o.R 0, o.scale * o.R 1, o.t 0;
         o.scale * o.R 2, o.scale * o.R 3, o.t 1;
         0, 0, 1] := by
  rw [sim2D_H_eq raw loc pts H Xp X n op sc ro tr o ho]
  rfl

theorem upperLeft2_sim2D [Mul α] [Zero α] [One α]
    (raw : Sim2DRaw α P W) (loc : Sim2DLocals α) (pts : W)
    (H : Fin 9 → α) (Xp X : P) (n op sc ro tr : Int) (o : Sim2DMem α W)
    (ho : o = raw ⟨Xp, X, n, op, sc, ro, tr⟩ (sim2DCallMem loc pts)) :
    upperLeft2 (db_StitchSimilarity2D raw loc pts H Xp X n op sc ro tr).H =
      !![o.scale * o.R 0, o.scale * o.R 1;
         o.scale * o.R 2, o.scale * o.R 3] := by
  rw [sim2D_H_eq raw loc pts H Xp X n op sc ro tr o ho]
  rfl

theorem rot_eq (raw : Sim3DRaw α P W) (loc : RotLocals α P) (pts : W)
    (R : Fin 9 → α) (x1 x2 xp1 xp2 : P) (args : SimArgs (List P))
    (mem : Sim3DMem α W) (ha : args = ⟨[xp1, xp2], [x1, x2], 2, 1, 0, 1, 0⟩)
    (hm : mem = ⟨loc.scale, R, loc.t, pts⟩) :
    db_StitchCameraRotation_2Points raw loc pts R x1 x2 xp1 xp2 =
      ⟨[(args, mem)], (raw args mem).R, (raw args mem).pts⟩ := by
  subst ha hm
  simp [db_StitchCameraRotation_2Points, List.ofFn_succ, Function.update]

end Lemmas

/-! ## `db_StitchSimilarity2D`: the call and the assembled matrix -/

section Similarity2D

variable {α P W : Type}

/-- C1: for every `Xp`, `X`, `nr_points` and every value of the four flags,
`db_StitchSimilarity2D` makes exactly one call of the raw solver, with those
arguments in that order (on its locals and the point memory), and leaves in `H`
the row-major matrix `[s*R[0], s*R[1], t[0]; s*R[2], s*R[3], t[1]; 0, 0, 1]`
of the scale, rotation and translation the solver wrote; `H[6] = H[7] = 0` and
`H[8] = 1` whatever the solver returns. -/
theorem similarity2D_calls_raw_once_and_assembles [Mul α] [Zero α] [One α]
    (raw : Sim2DRaw α P W) (loc : Sim2DLocals α) (pts : W) (H : Fin 9 → α)
    (Xp X : P) (nr_points orientation_preserving allow_scaling allow_rotation
      allow_translation : Int) :
    let r := db_StitchSimilarity2D raw loc pts H Xp X nr_points
      orientation_preserving allow_scaling allow_rotation allow_translation
    let args : SimArgs P := ⟨Xp, X, nr_points, orientation_preserving,
      allow_scaling, allow_rotation, allow_translation⟩
    let o := raw args (sim2DCallMem loc pts)
    r.calls = [(args, sim2DCallMem loc pts)] ∧
      r.H = ![o.scale * o.R 0, o.scale * o.R 1, o.t 0,
              o.scale * o.R 2, o.scale * o.R 3, o.t 1,
              0, 0, 1] ∧
      r.H 6 = 0 ∧ r.H 7 = 0 ∧ r.H 8 = 1 := by
  intro r args o
  have hH := sim2D_H_eq raw loc pts H Xp X nr_points orientation_preserving
    allow_scaling allow_rotation allow_translation o rfl
  refine ⟨rfl, hH, ?_, ?_, ?_⟩
  · show r.H 6 = 0
    rw [hH]; rfl
  · show r.H 7 = 0
    rw [hH]; rfl
  · show r.H 8 = 1
    rw [hH]; rfl

/-- C4: the flags default to all enabled with orientation-preserving enabled:
a call of `db_StitchSimilarity2D`, and likewise of `db_StitchSimilarity2DRaw`,
that leaves out the four flag arguments is the call with
`orientation_preserving = 1`, `allow_scaling = 1`, `allow_rotation = 1`,
`allow_translation = 1`. -/
theorem flags_default_to_all_enabled [Mul α] [Zero α] [One α]
    (raw : Sim2DRaw α P W) (loc : Sim2DLocals α) (mem : Sim2DMem α W) (pts : W)
    (H : Fin 9 → α) (Xp X : P) (nr_points : Int) :
    db_StitchSimilarity2D_call raw loc pts H Xp X nr_points none none none none =
        db_StitchSimilarity2D raw loc pts H Xp X nr_points 1 1 1 1 ∧
      db_StitchSimilarity2DRaw_call raw mem Xp X nr_points none none none none =
        raw ⟨Xp, X, nr_points, 1, 1, 1, 1⟩ mem :=
  ⟨rfl, rfl⟩

end Similarity2D

/-! ## `db_StitchCameraRotation_2Points`: the call it makes -/

section Rotation

variable {α P W : Type}

/-- C2: for every `x1`, `x2`, `xp1`, `xp2`, `db_StitchCameraRotation_2Points`
calls the similarity solver once, with `nr_points = 2`, `allow_scaling = 0`,
`allow_rotation = 1` and `allow_translation = 0`: there are arguments with
these values such that, whatever the solver is, the result is what the solver
returns on them. -/
theorem rotation2Points_disables_scaling_and_translation
    (loc : RotLocals α P) (pts : W) (R : Fin 9 → α) (x1 x2 xp1 xp2 : P) :
    ∃ (a : SimArgs (List P)) (m : Sim3DMem α W),
      a.nr_points = 2 ∧ a.allow_scaling = 0 ∧ a.allow_rotation = 1 ∧
      a.allow_translation = 0 ∧
      ∀ raw : Sim3DRaw α P W,
        db_StitchCameraRotation_2Points raw loc pts R x1 x2 xp1 xp2 =
          ⟨[(a, m)], (raw a m).R, (raw a m).pts⟩ :=
  ⟨⟨[xp1, xp2], [x1, x2], 2, 1, 0, 1, 0⟩, ⟨loc.scale, R, loc.t, pts⟩,
    rfl, rfl, rfl, rfl,
    fun raw => rot_eq raw loc pts R x1 x2 xp1 xp2 _ _ rfl rfl⟩

/-- C3, as stated, fails.  Run on the solver that writes its arguments into
`R`, `db_StitchCameraRotation_2Points` leaves `R = [2, 1, 0, 1, 0, 20, 21, 10,
11]`: the solver was called with `orientation_preserving = 1`.  So there are
no arguments with `orientation_preserving = 0` on which every solver is
called.  And whichever of the four trailing positions each flag has in the
declaration of the solver, if the call disables scaling and translation and
enables rotation, the flag that is left, `orientation_preserving`, is `1`. -/
theorem rotation2Points_orientation_not_zero :
    (db_StitchCameraRotation_2Points echoRaw3D sampleRotLocalsInt ()
        ![5, 5, 5, 5, 5, 5, 5, 5, 5] 10 11 20 21).R =
      ![2, 1, 0, 1, 0, 20, 21, 10, 11] ∧
    (¬ ∃ (a : SimArgs (List Nat)) (m : Sim3DMem Int Unit),
        a.orientation_preserving = 0 ∧
        ∀ raw : Sim3DRaw Int Nat Unit,
          db_StitchCameraRotation_2Points raw sampleRotLocalsInt ()
              ![5, 5, 5, 5, 5, 5, 5, 5, 5] 10 11 20 21 =
            ⟨[(a, m)], (raw a m).R, (raw a m).pts⟩) ∧
    ∀ p_orientation p_scaling p_rotation p_translation : Fin 4,
      p_orientation ≠ p_scaling → p_orientation ≠ p_translation →
      p_scaling ≠ p_translation →
      (db_StitchCameraRotation_2Points echoRaw3D sampleRotLocalsInt ()
        ![5, 5, 5, 5, 5, 5, 5, 5, 5] 10 11 20 21).R (trailingSlot p_scaling) = 0 →
      (db_StitchCameraRotation_2Points echoRaw3D sampleRotLocalsInt ()
        ![5, 5, 5, 5, 5, 5, 5, 5, 5] 10 11 20 21).R (trailingSlot p_rotation) = 1 →
      (db_StitchCameraRotation_2Points echoRaw3D sampleRotLocalsInt ()
        ![5, 5, 5, 5, 5, 5, 5, 5, 5] 10 11 20 21).R (trailingSlot p_translation) = 0 →
      (db_StitchCameraRotation_2Points echoRaw3D sampleRotLocalsInt ()
        ![5, 5, 5, 5, 5, 5, 5, 5, 5] 10 11 20 21).R (trailingSlot p_orientation) = 1 := by
  have hR : (db_StitchCameraRotation_2Points echoRaw3D sampleRotLocalsInt ()
      ![5, 5, 5, 5, 5, 5, 5, 5, 5] 10 11 20 21).R =
      ![2, 1, 0, 1, 0, 20, 21, 10, 11] := by
    rw [rot_eq echoRaw3D sampleRotLocalsInt () _ 10 11 20 21 _ _ rfl rfl]
    rfl
  refine ⟨hR, ?_, ?_⟩
  · rintro ⟨a, m, h0, h⟩
    have h1 := congrArg (fun r => r.R 1) (h echoRaw3D)
    simp only [hR] at h1
    have h2 : (1 : Int) = a.orientation_preserving := h1
    rw [h0] at h2
    exact absurd h2 (by decide)
  · rw [hR]
    decide

/-- C3, amended: for every input, `db_StitchCameraRotation_2Points` calls the
similarity solver once and the `orientation_preserving` argument it passes is
`1`, so the orientation is forced: there are arguments with
`orientation_preserving = 1` such that, whatever the solver is, the result is
what the solver returns on them. -/
theorem rotation2Points_forces_orientation
    (loc : RotLocals α P) (pts : W) (R : Fin 9 → α) (x1 x2 xp1 xp2 : P) :
    ∃ (a : SimArgs (List P)) (m : Sim3DMem α W),
      a.orientation_preserving = 1 ∧
      ∀ raw : Sim3DRaw α P W,
        db_StitchCameraRotation_2Points raw loc pts R x1 x2 xp1 xp2 =
          ⟨[(a, m)], (raw a m).R, (raw a m).pts⟩ :=
  ⟨⟨[xp1, xp2], [x1, x2], 2, 1, 0, 1, 0⟩, ⟨loc.scale, R, loc.t, pts⟩, rfl,
    fun raw => rot_eq raw loc pts R x1 x2 xp1 xp2 _ _ rfl rfl⟩

/-- C8: `db_StitchCameraRotation_2Points` keeps the index alignment and the
direction of the correspondences.  Whatever the solver is and whatever the
local arrays held, the result is what the solver returns on the target array
`Xp = [xp1, xp2]` (image 2) and the source array `X = [x1, x2]` (image 1), so
`x1` is paired with `xp1` and `x2` with `xp2`.  And the estimated `R` is the
one for `xp ~ R x`: for every reading `fit R w xp x` of "in the memory `w` the
point behind `xp` is `R` applied to the point behind `x`", if what the solver
writes fits each pair `(Xp[i], X[i])` of its arguments, then `R` after the
call fits `(xp1, x1)` and `(xp2, x2)`. -/
theorem rotation2Points_keeps_alignment_and_direction
    (raw : Sim3DRaw α P W) (loc : RotLocals α P) (pts : W) (R : Fin 9 → α)
    (x1 x2 xp1 xp2 : P) :
    let a : SimArgs (List P) := ⟨[xp1, xp2], [x1, x2], 2, 1, 0, 1, 0⟩
    let m : Sim3DMem α W := ⟨loc.scale, R, loc.t, pts⟩
    let r := db_StitchCameraRotation_2Points raw loc pts R x1 x2 xp1 xp2
    r = ⟨[(a, m)], (raw a m).R, (raw a m).pts⟩ ∧
      a.Xp.zip a.X = [(xp1, x1), (xp2, x2)] ∧
      ∀ fit : (Fin 9 → α) → W → P → P → Prop,
        (∀ q ∈ a.Xp.zip a.X, fit (raw a m).R (raw a m).pts q.1 q.2) →
          fit r.R r.pts xp1 x1 ∧ fit r.R r.pts xp2 x2 := by
  intro a m r
  have hr : r = ⟨[(a, m)], (raw a m).R, (raw a m).pts⟩ :=
    rot_eq raw loc pts R x1 x2 xp1 xp2 a m rfl rfl
  refine ⟨hr, rfl, ?_⟩
  intro fit hfit
  rw [hr]
  exact ⟨hfit (xp1, x1) (by simp [a]), hfit (xp2, x2) (by simp [a])⟩

/-- C8 at a sample input: the solver writes the quarter turn that takes the
image 1 points `(1,0,0)`, `(0,1,0)` to the image 2 points `(0,1,0)`,
`(-1,0,0)`; after the call `R` takes `x1` to `xp1` and `x2` to `xp2`, and it
does not take `xp1` to `x1`. -/
theorem rotation2Points_keeps_alignment_and_direction_witness :
    (∀ q ∈ [(20, 10), (21, 11)],
        sampleFit (quarterTurnRaw3D ⟨[20, 21], [10, 11], 2, 1, 0, 1, 0⟩
          ⟨sampleRotLocals.scale, ![5, 5, 5, 5, 5, 5, 5, 5, 5], sampleRotLocals.t, ()⟩).R
          () q.1 q.2) ∧
      (sampleFit (db_StitchCameraRotation_2Points quarterTurnRaw3D sampleRotLocals ()
          ![5, 5, 5, 5, 5, 5, 5, 5, 5] 10 11 20 21).R () 20 10 ∧
        sampleFit (db_StitchCameraRotation_2Points quarterTurnRaw3D sampleRotLocals ()
          ![5, 5, 5, 5, 5, 5, 5, 5, 5] 10 11 20 21).R () 21 11) ∧
      ¬ sampleFit (db_StitchCameraRotation_2Points quarterTurnRaw3D sampleRotLocals ()
          ![5, 5, 5, 5, 5, 5, 5, 5, 5] 10 11 20 21).R () 10 20 := by
  have hfit : ∀ q ∈ [((20 : Nat), (10 : Nat)), (21, 11)],
      sampleFit (quarterTurnRaw3D ⟨[20, 21], [10, 11], 2, 1, 0, 1, 0⟩
        ⟨sampleRotLocals.scale, ![5, 5, 5, 5, 5, 5, 5, 5, 5], sampleRotLocals.t, ()⟩).R
        () q.1 q.2 := by
    intro q hq
    simp only [List.mem_cons, List.mem_singleton, List.not_mem_nil, or_false] at hq
    rcases hq with rfl | rfl <;>
      · show samplePoint _ = _
        funext i
        fin_cases i <;>
          (simp [samplePoint, quarterTurnRaw3D, toMatrix3, Matrix.mulVec,
            Matrix.dotProduct, Fin.sum_univ_three]; try rfl)
  refine ⟨hfit,
    (rotation2Points_keeps_alignment_and_direction quarterTurnRaw3D sampleRotLocals ()
      ![5, 5, 5, 5, 5, 5, 5, 5, 5] 10 11 20 21).2.2 sampleFit hfit, ?_⟩
  intro h
  have h0 := congrFun h 0
  rw [rot_eq quarterTurnRaw3D sampleRotLocals () _ 10 11 20 21 _ _ rfl rfl] at h0
  simp [samplePoint, quarterTurnRaw3D, toMatrix3, Matrix.mulVec,
    Matrix.dotProduct, Fin.sum_univ_three] at h0
  norm_num at h0

/-- C10: `R` is the only output of `db_StitchCameraRotation_2Points` the caller
can see.  The one solver call gets the caller's `R` buffer as it is, the
locals for scale and translation, the four point pointers themselves and the
caller's point memory; afterwards `R` is what the solver wrote and the point
memory is as the solver left it; and the scale and translation the solver
wrote are dropped: a solver that writes the same `R` and point memory, and any
scale and translation, gives the same result. -/
theorem rotation2Points_only_output_is_R
    (raw : Sim3DRaw α P W) (loc : RotLocals α P) (pts : W) (R : Fin 9 → α)
    (x1 x2 xp1 xp2 : P) :
    let r := db_StitchCameraRotation_2Points raw loc pts R x1 x2 xp1 xp2
    let args : SimArgs (List P) := ⟨[xp1, xp2], [x1, x2], 2, 1, 0, 1, 0⟩
    let mem : Sim3DMem α W := ⟨loc.scale, R, loc.t, pts⟩
    r.calls = [(args, mem)] ∧ r.R = (raw args mem).R ∧
      r.pts = (raw args mem).pts ∧
      ∀ raw2 : Sim3DRaw α P W,
        (∀ a m, (raw2 a m).R = (raw a m).R ∧ (raw2 a m).pts = (raw a m).pts) →
          db_StitchCameraRotation_2Points raw2 loc pts R x1 x2 xp1 xp2 = r := by
  intro r args mem
  have hr : r = ⟨[(args, mem)], (raw args mem).R, (raw args mem).pts⟩ :=
    rot_eq raw loc pts R x1 x2 xp1 xp2 args mem rfl rfl
  refine ⟨by rw [hr], by rw [hr], by rw [hr], ?_⟩
  intro raw2 h
  rw [hr, rot_eq raw2 loc pts R x1 x2 xp1 xp2 args mem rfl rfl, (h args mem).1,
    (h args mem).2]

/-- C10 at a sample input: two solvers that write the same rotation and
different scales and translations. -/
theorem rotation2Points_only_output_is_R_witness :
    (∀ a m, (sampleRaw3D_b a m).R = (sampleRaw3D a m).R ∧
        (sampleRaw3D_b a m).pts = (sampleRaw3D a m).pts) ∧
      db_StitchCameraRotation_2Points sampleRaw3D_b sampleRotLocals ()
          ![2, 0, 0, 0, 2, 0, 0, 0, 2] 10 11 20 21 =
        db_StitchCameraRotation_2Points sampleRaw3D sampleRotLocals ()
          ![2, 0, 0, 0, 2, 0, 0, 0, 2] 10 11 20 21 :=
  ⟨fun _ _ => ⟨rfl, rfl⟩,
    (rotation2Points_only_output_is_R sampleRaw3D sampleRotLocals ()
      ![2, 0, 0, 0, 2, 0, 0, 0, 2] 10 11 20 21).2.2.2 sampleRaw3D_b
        (fun _ _ => ⟨rfl, rfl⟩)⟩

end Rotation

/-! ## `db_StitchSimilarity2D`: the matrix as a transformation -/

section Similarity2DAlgebra

variable {α P W : Type}

/-- C7: `db_StitchSimilarity2D` has no hidden state.  All nine entries of `H`
are assigned, so with the same solver, locals, point memory, `Xp`, `X`,
`nr_points` and flags the result does not depend on what `H` held before; and
when the solver is a function of its inputs (what it writes does not depend on
what its output buffers held before), `H` and the point memory after the call
depend on neither the old `H` nor the old contents of the locals. -/
theorem similarity2D_no_hidden_state [Mul α] [Zero α] [One α]
    (raw : Sim2DRaw α P W) (pts : W) (Xp X : P)
    (nr_points orientation_preserving allow_scaling allow_rotation
      allow_translation : Int) :
    (∀ (loc : Sim2DLocals α) (H H2 : Fin 9 → α),
        db_StitchSimilarity2D raw loc pts H Xp X nr_points
            orientation_preserving allow_scaling allow_rotation allow_translation =
          db_StitchSimilarity2D raw loc pts H2 Xp X nr_points
            orientation_preserving allow_scaling allow_rotation allow_translation) ∧
      ((∀ a (m m2 : Sim2DMem α W), m.pts = m2.pts → raw a m = raw a m2) →
        ∀ (loc loc2 : Sim2DLocals α) (H H2 : Fin 9 → α),
          (db_StitchSimilarity2D raw loc pts H Xp X nr_points
              orientation_preserving allow_scaling allow_rotation allow_translation).H =
            (db_StitchSimilarity2D raw loc2 pts H2 Xp X nr_points
              orientation_preserving allow_scaling allow_rotation allow_translation).H ∧
          (db_StitchSimilarity2D raw loc pts H Xp X nr_points
              orientation_preserving allow_scaling allow_rotation allow_translation).pts =
            (db_StitchSimilarity2D raw loc2 pts H2 Xp X nr_points
              orientation_preserving allow_scaling allow_rotation
              allow_translation).pts) := by
  constructor
  · intro loc H H2
    have h1 := sim2D_H_eq raw loc pts H Xp X nr_points orientation_preserving
      allow_scaling allow_rotation allow_translation _ rfl
    have h2 := sim2D_H_eq raw loc pts H2 Xp X nr_points orientation_preserving
      allow_scaling allow_rotation allow_translation _ rfl
    have e : ∀ a b : Sim2DResult α P W,
        a.calls = b.calls → a.H = b.H → a.pts = b.pts → a = b := by
      intro a b hc hh hp
      cases a; cases b; simp_all
    exact e _ _ rfl (h1.trans h2.symm) rfl
  · intro hdet loc loc2 H H2
    have hm : raw ⟨Xp, X, nr_points, orientation_preserving, allow_scaling,
          allow_rotation, allow_translation⟩ (sim2DCallMem loc pts) =
        raw ⟨Xp, X, nr_points, orientation_preserving, allow_scaling,
          allow_rotation, allow_translation⟩ (sim2DCallMem loc2 pts) :=
      hdet _ _ _ rfl
    have h1 := sim2D_H_eq raw loc pts H Xp X nr_points orientation_preserving
      allow_scaling allow_rotation allow_translation _ rfl
    have h2 := sim2D_H_eq raw loc2 pts H2 Xp X nr_points orientation_preserving
      allow_scaling allow_rotation allow_translation _ rfl
    refine ⟨?_, ?_⟩
    · rw [h1, h2, hm]
    · show (raw _ (sim2DCallMem loc pts)).pts = (raw _ (sim2DCallMem loc2 pts)).pts
      rw [hm]

/-- C7 at a sample input: a solver that is a function of its inputs, two
contents of the locals and two contents of `H`. -/
theorem similarity2D_no_hidden_state_witness :
    (∀ a (m m2 : Sim2DMem ℚ Unit), m.pts = m2.pts → sampleRaw2D a m = sampleRaw2D a m2) ∧
      (db_StitchSimilarity2D sampleRaw2D sampleLocals2D () ![0, 0, 0, 0, 0, 0, 0, 0, 0]
          30 40 2 1 1 1 1).H =
        (db_StitchSimilarity2D sampleRaw2D sampleLocals2D_b () ![1, 2, 3, 4, 5, 6, 7, 8, 9]
          30 40 2 1 1 1 1).H :=
  ⟨fun _ _ _ h => by simp [sampleRaw2D, h],
    ((similarity2D_no_hidden_state sampleRaw2D () 30 40 2 1 1 1 1).2
      (fun _ _ _ h => by simp [sampleRaw2D, h])
      sampleLocals2D sampleLocals2D_b ![0, 0, 0, 0, 0, 0, 0, 0, 0]
      ![1, 2, 3, 4, 5, 6, 7, 8, 9]).1⟩

/-- C5: over exact arithmetic the matrix `H` that `db_StitchSimilarity2D`
leaves acts on homogeneous points as the similarity the raw solver returned:
`H*(x, y, 1)^T = (s*(R[0]*x + R[1]*y) + t[0], s*(R[2]*x + R[3]*y) + t[1], 1)`
for every `(x, y)`; hence whenever `s*R*X_i + t = Xp_i` for points `X_i`,
`Xp_i`, `H` maps `(X_i, 1)` to `(Xp_i, 1)`. -/
theorem similarity2D_H_acts_as_similarity [CommRing α]
    (raw : Sim2DRaw α P W) (loc : Sim2DLocals α) (pts : W) (H : Fin 9 → α)
    (Xp X : P) (nr_points orientation_preserving allow_scaling allow_rotation
      allow_translation : Int) :
    let r := db_StitchSimilarity2D raw loc pts H Xp X nr_points
      orientation_preserving allow_scaling allow_rotation allow_translation
    let o := raw ⟨Xp, X, nr_points, orientation_preserving, allow_scaling,
      allow_rotation, allow_translation⟩ (sim2DCallMem loc pts)
    (∀ x y : α, (toMatrix3 r.H).mulVec ![x, y, 1] =
        ![o.scale * (o.R 0 * x + o.R 1 * y) + o.t 0,
          o.scale * (o.R 2 * x + o.R 3 * y) + o.t 1, 1]) ∧
      ∀ Xi Xpi : Fin 2 → α,
        o.scale • (toMatrix2 o.R).mulVec Xi + o.t = Xpi →
          (toMatrix3 r.H).mulVec ![Xi 0, Xi 1, 1] = ![Xpi 0, Xpi 1, 1] := by
  intro r o
  have hM := toMatrix3_sim2D raw loc pts H Xp X nr_points
    orientation_preserving allow_scaling allow_rotation allow_translation o rfl
  have hact : ∀ x y : α, (toMatrix3 r.H).mulVec ![x, y, 1] =
      ![o.scale * (o.R 0 * x + o.R 1 * y) + o.t 0,
        o.scale * (o.R 2 * x + o.R 3 * y) + o.t 1, 1] := by
    intro x y
    show (toMatrix3 (db_StitchSimilarity2D raw loc pts H Xp X nr_points
      orientation_preserving allow_scaling allow_rotation allow_translation).H).mulVec
        ![x, y, 1] = _
    rw [hM]
    funext i
    fin_cases i <;>
      simp [Matrix.mulVec, Matrix.dotProduct, Fin.sum_univ_three] <;> ring
  refine ⟨hact, ?_⟩
  intro Xi Xpi hfit
  rw [hact, ← hfit]
  funext i
  fin_cases i <;>
    simp [toMatrix2, Matrix.mulVec, Matrix.dotProduct, Fin.sum_univ_two]

/-- C5 at a sample input: the sample solver returns scale `2`, a quarter turn
and the translation `(3,5)`, which takes `(1,1)` to `(1,7)`. -/
theorem similarity2D_H_acts_as_similarity_witness :
    (2 : ℚ) • (toMatrix2 (![0, -1, 1, 0] : Fin 4 → ℚ)).mulVec ![1, 1] + ![3, 5] =
        (![1, 7] : Fin 2 → ℚ) ∧
      (toMatrix3 (db_StitchSimilarity2D sampleRaw2D sampleLocals2D ()
          ![0, 0, 0, 0, 0, 0, 0, 0, 0] 30 40 2 1 1 1 1).H).mulVec ![1, 1, 1] =
        ![1, 7, 1] := by
  have hfit : (2 : ℚ) • (toMatrix2 (![0, -1, 1, 0] : Fin 4 → ℚ)).mulVec ![1, 1] +
      ![3, 5] = (![1, 7] : Fin 2 → ℚ) := by
    funext i
    fin_cases i <;>
      simp [toMatrix2, Matrix.mulVec, Matrix.dotProduct, Fin.sum_univ_two] <;> norm_num
  exact ⟨hfit,
    (similarity2D_H_acts_as_similarity sampleRaw2D sampleLocals2D ()
      ![0, 0, 0, 0, 0, 0, 0, 0, 0] 30 40 2 1 1 1 1).2 ![1, 1] ![1, 7] hfit⟩

/-- C6, as stated, fails on doubles.  The solver `infiniteScaleRaw2D` honours
the documented contract, and with `allow_rotation = 0` and scaling allowed it
returns the identity and an infinite scale `s`; then `H[1] = H[3] = s*0` is NaN
and the upper-left 2×2 block of `H` is not `[s, 0; 0, s]`. -/
theorem similarity2D_dof_gating_fails_at_infinite_scale :
    ((∀ a m, a.allow_scaling = 0 → (infiniteScaleRaw2D a m).scale = 1) ∧
      (∀ a m, a.allow_rotation = 0 → (infiniteScaleRaw2D a m).R = ![1, 0, 0, 1]) ∧
      (∀ a m, a.allow_translation = 0 → (infiniteScaleRaw2D a m).t = ![0, 0])) ∧
    (infiniteScaleRaw2D ⟨30, 40, 2, 1, 1, 0, 1⟩
      (sim2DCallMem sampleLocalsIeee ())).scale = Ieee.pinf ∧
    (db_StitchSimilarity2D infiniteScaleRaw2D sampleLocalsIeee ()
        ![0, 0, 0, 0, 0, 0, 0, 0, 0] 30 40 2 1 1 0 1).H =
      ![Ieee.pinf, Ieee.nan, Ieee.fin 3, Ieee.nan, Ieee.pinf, Ieee.fin 5, 0, 0, 1] ∧
    upperLeft2 (db_StitchSimilarity2D infiniteScaleRaw2D sampleLocalsIeee ()
        ![0, 0, 0, 0, 0, 0, 0, 0, 0] 30 40 2 1 1 0 1).H ≠
      !![(infiniteScaleRaw2D ⟨30, 40, 2, 1, 1, 0, 1⟩
            (sim2DCallMem sampleLocalsIeee ())).scale, 0;
         0, (infiniteScaleRaw2D ⟨30, 40, 2, 1, 1, 0, 1⟩
            (sim2DCallMem sampleLocalsIeee ())).scale] := by
  have hH : (db_StitchSimilarity2D infiniteScaleRaw2D sampleLocalsIeee ()
      ![0, 0, 0, 0, 0, 0, 0, 0, 0] 30 40 2 1 1 0 1).H =
      ![Ieee.pinf, Ieee.nan, Ieee.fin 3, Ieee.nan, Ieee.pinf, Ieee.fin 5, 0, 0, 1] := by
    rw [sim2D_H_eq infiniteScaleRaw2D sampleLocalsIeee () _ 30 40 2 1 1 0 1 _ rfl]
    rfl
  refine ⟨⟨?_, ?_, ?_⟩, rfl, hH, ?_⟩
  · intro a m h
    simp [infiniteScaleRaw2D, h]
  · intro a m h
    simp [infiniteScaleRaw2D, h]
  · intro a m h
    simp [infiniteScaleRaw2D, h]
  · intro h
    have h01 := congrFun (congrFun h 0) 1
    rw [hH] at h01
    have h2 : Ieee.nan = (0 : Ieee) := h01
    exact absurd h2 (by decide)

/-- C6, amended: the gating of the degrees of freedom carries through
`db_StitchSimilarity2D` in every arithmetic with `1*x = x*1 = x` (doubles,
exact arithmetic).  When the raw solver honours its documented contract
(`allow_scaling = 0` gives scale `1`, `allow_rotation = 0` gives `R` the
identity, `allow_translation = 0` gives `t = (0,0)`), then for every input:
with `allow_translation = 0`, `H[2] = H[5] = 0`; with `allow_scaling = 0`, the
upper-left 2×2 block of `H` is `R`; with `allow_rotation = 0` and a scale `s`
with `s*0 = 0` (every finite `s`, every `s` in exact arithmetic), that block is
`[s, 0; 0, s]`; and with all three disabled `H` is the 3×3 identity, whatever
the points and `nr_points`. -/
theorem similarity2D_dof_gating [MulOneClass α] [Zero α] (raw : Sim2DRaw α P W)
    (hs : ∀ a m, a.allow_scaling = 0 → (raw a m).scale = 1)
    (hr : ∀ a m, a.allow_rotation = 0 → (raw a m).R = ![1, 0, 0, 1])
    (ht : ∀ a m, a.allow_translation = 0 → (raw a m).t = ![0, 0])
    (loc : Sim2DLocals α) (pts : W) (H : Fin 9 → α) (Xp X : P)
    (nr_points orientation_preserving : Int) :
    (∀ allow_scaling allow_rotation : Int,
        (db_StitchSimilarity2D raw loc pts H Xp X nr_points
          orientation_preserving allow_scaling allow_rotation 0).H 2 = 0 ∧
        (db_StitchSimilarity2D raw loc pts H Xp X nr_points
          orientation_preserving allow_scaling allow_rotation 0).H 5 = 0) ∧
      (∀ allow_rotation allow_translation : Int,
        upperLeft2 (db_StitchSimilarity2D raw loc pts H Xp X nr_points
          orientation_preserving 0 allow_rotation allow_translation).H =
        toMatrix2 (raw ⟨Xp, X, nr_points, orientation_preserving, 0, allow_rotation,
          allow_translation⟩ (sim2DCallMem loc pts)).R) ∧
      (∀ allow_scaling allow_translation : Int,
        (raw ⟨Xp, X, nr_points, orientation_preserving, allow_scaling, 0,
            allow_translation⟩ (sim2DCallMem loc pts)).scale * 0 = 0 →
        upperLeft2 (db_StitchSimilarity2D raw loc pts H Xp X nr_points
          orientation_preserving allow_scaling 0 allow_translation).H =
        !![(raw ⟨Xp, X, nr_points, orientation_preserving, allow_scaling, 0,
              allow_translation⟩ (sim2DCallMem loc pts)).scale, 0;
           0, (raw ⟨Xp, X, nr_points, orientation_preserving, allow_scaling, 0,
              allow_translation⟩ (sim2DCallMem loc pts)).scale]) ∧
      (db_StitchSimilarity2D raw loc pts H Xp X nr_points
          orientation_preserving 0 0 0).H = ![1, 0, 0, 0, 1, 0, 0, 0, 1] ∧
      toMatrix3 (db_StitchSimilarity2D raw loc pts H Xp X nr_points
          orientation_preserving 0 0 0).H = 1 := by
  refine ⟨?_, ?_, ?_, ?_, ?_⟩
  · intro sc ro
    rw [sim2D_H_eq raw loc pts H Xp X nr_points orientation_preserving sc ro 0 _ rfl,
      ht _ _ rfl]
    exact ⟨rfl, rfl⟩
  · intro ro tr
    rw [upperLeft2_sim2D raw loc pts H Xp X nr_points orientation_preserving 0 ro tr _ rfl,
      hs _ _ rfl]
    simp [toMatrix2]
  · intro sc tr h0
    rw [upperLeft2_sim2D raw loc pts H Xp X nr_points orientation_preserving sc 0 tr _ rfl,
      hr _ _ rfl]
    simp [h0]
  · rw [sim2D_H_eq raw loc pts H Xp X nr_points orientation_preserving 0 0 0 _ rfl,
      hs _ _ rfl, hr _ _ rfl, ht _ _ rfl]
    simp
  · rw [toMatrix3_sim2D raw loc pts H Xp X nr_points orientation_preserving 0 0 0 _ rfl,
      hs _ _ rfl, hr _ _ rfl, ht _ _ rfl]
    ext i j
    fin_cases i <;> fin_cases j <;> (simp; try rfl)

/-- C6, amended, at sample inputs: the sample solver over `ℚ` honours the
contract and its scale `2` has `2*0 = 0`, and with rotation disabled the block
is `[2, 0; 0, 2]`; and on `Ieee`, for the solver with the infinite scale, which
honours the contract too, the matrix with all three flags at `0` is the
identity. -/
theorem similarity2D_dof_gating_witness :
    ((∀ a m, a.allow_scaling = 0 → (sampleRaw2D a m).scale = 1) ∧
      (∀ a m, a.allow_rotation = 0 → (sampleRaw2D a m).R = ![1, 0, 0, 1]) ∧
      (∀ a m, a.allow_translation = 0 → (sampleRaw2D a m).t = ![0, 0]) ∧
      (sampleRaw2D ⟨30, 40, 5, 1, 1, 0, 1⟩ (sim2DCallMem sampleLocals2D ())).scale * 0 = 0 ∧
      upperLeft2 (db_StitchSimilarity2D sampleRaw2D sampleLocals2D ()
          ![1, 2, 3, 4, 5, 6, 7, 8, 9] 30 40 5 1 1 0 1).H =
        !![(sampleRaw2D ⟨30, 40, 5, 1, 1, 0, 1⟩ (sim2DCallMem sampleLocals2D ())).scale, 0;
           0, (sampleRaw2D ⟨30, 40, 5, 1, 1, 0, 1⟩ (sim2DCallMem sampleLocals2D ())).scale]) ∧
    ((∀ a m, a.allow_scaling = 0 → (infiniteScaleRaw2D a m).scale = 1) ∧
      (∀ a m, a.allow_rotation = 0 → (infiniteScaleRaw2D a m).R = ![1, 0, 0, 1]) ∧
      (∀ a m, a.allow_translation = 0 → (infiniteScaleRaw2D a m).t = ![0, 0]) ∧
      toMatrix3 (db_StitchSimilarity2D infiniteScaleRaw2D sampleLocalsIeee ()
        ![0, 0, 0, 0, 0, 0, 0, 0, 0] 30 40 2 1 0 0 0).H = 1) :=
  ⟨⟨fun _ _ h => by simp [sampleRaw2D, h],
    fun _ _ h => by simp [sampleRaw2D, h],
    fun _ _ h => by simp [sampleRaw2D, h],
    by simp,
    (similarity2D_dof_gating sampleRaw2D
      (fun _ _ h => by simp [sampleRaw2D, h])
      (fun _ _ h => by simp [sampleRaw2D, h])
      (fun _ _ h => by simp [sampleRaw2D, h])
      sampleLocals2D () ![1, 2, 3, 4, 5, 6, 7, 8, 9] 30 40 5 1).2.2.1 1 1 (by simp)⟩,
   ⟨fun _ _ h => by simp [infiniteScaleRaw2D, h],
    fun _ _ h => by simp [infiniteScaleRaw2D, h],
    fun _ _ h => by simp [infiniteScaleRaw2D, h],
    (similarity2D_dof_gating infiniteScaleRaw2D
      (fun _ _ h => by simp [infiniteScaleRaw2D, h])
      (fun _ _ h => by simp [infiniteScaleRaw2D, h])
      (fun _ _ h => by simp [infiniteScaleRaw2D, h])
      sampleLocalsIeee () ![0, 0, 0, 0, 0, 0, 0, 0, 0] 30 40 2 1).2.2.2.2⟩⟩

/-- C9: over exact arithmetic, for every output of `db_StitchSimilarity2D`,
`det(H)` is the determinant of the upper-left 2×2 block of `H`, which is
`s^2 * (R[0]*R[3] - R[1]*R[2])`, that is `s^2 * det(R)`; hence when the raw
solver returns `det(R) > 0` and `s ≠ 0`, `H` is invertible with `det(H) > 0`,
and `H` is singular exactly when `s = 0` or `det(R) = 0`. -/
theorem similarity2D_det [LinearOrderedField α]
    (raw : Sim2DRaw α P W) (loc : Sim2DLocals α) (pts : W) (H : Fin 9 → α)
    (Xp X : P) (nr_points orientation_preserving allow_scaling allow_rotation
      allow_translation : Int) :
    let r := db_StitchSimilarity2D raw loc pts H Xp X nr_points
      orientation_preserving allow_scaling allow_rotation allow_translation
    let o := raw ⟨Xp, X, nr_points, orientation_preserving, allow_scaling,
      allow_rotation, allow_translation⟩ (sim2DCallMem loc pts)
    (toMatrix3 r.H).det = (upperLeft2 r.H).det ∧
      (upperLeft2 r.H).det = o.scale ^ 2 * (o.R 0 * o.R 3 - o.R 1 * o.R 2) ∧
      (toMatrix2 o.R).det = o.R 0 * o.R 3 - o.R 1 * o.R 2 ∧
      (0 < (toMatrix2 o.R).det → o.scale ≠ 0 →
        IsUnit (toMatrix3 r.H) ∧ 0 < (toMatrix3 r.H).det) ∧
      (¬ IsUnit (toMatrix3 r.H) ↔ o.scale = 0 ∨ (toMatrix2 o.R).det = 0) ∧
      ((toMatrix3 r.H).det = 0 ↔ o.scale = 0 ∨ (toMatrix2 o.R).det = 0) := by
  intro r o
  have hM : toMatrix3 r.H = _ := toMatrix3_sim2D raw loc pts H Xp X nr_points
    orientation_preserving allow_scaling allow_rotation allow_translation o rfl
  have hU : upperLeft2 r.H = _ := upperLeft2_sim2D raw loc pts H Xp X nr_points
    orientation_preserving allow_scaling allow_rotation allow_translation o rfl
  have hR : (toMatrix2 o.R).det = o.R 0 * o.R 3 - o.R 1 * o.R 2 := by
    simp [toMatrix2, Matrix.det_fin_two]
  have h2 : (upperLeft2 r.H).det = o.scale ^ 2 * (o.R 0 * o.R 3 - o.R 1 * o.R 2) := by
    rw [hU, Matrix.det_fin_two]
    simp
    ring
  have h3 : (toMatrix3 r.H).det = o.scale ^ 2 * (o.R 0 * o.R 3 - o.R 1 * o.R 2) := by
    rw [hM, Matrix.det_fin_three]
    simp
    ring
  have hz : (toMatrix3 r.H).det = 0 ↔ o.scale = 0 ∨ (toMatrix2 o.R).det = 0 := by
    rw [h3, hR, mul_eq_zero, pow_eq_zero_iff (two_ne_zero)]
  refine ⟨h3.trans h2.symm, h2, hR, ?_, ?_, hz⟩
  · intro hpos hs
    have hd : 0 < (toMatrix3 r.H).det := by
      rw [h3, ← hR]
      have hsq : 0 < o.scale ^ 2 := by positivity
      exact mul_pos hsq hpos
    exact ⟨(Matrix.isUnit_iff_isUnit_det _).2 (isUnit_iff_ne_zero.2 hd.ne.symm), hd⟩
  · rw [Matrix.isUnit_iff_isUnit_det, isUnit_iff_ne_zero, not_not]
    exact hz

/-- C9 at a sample input: the sample solver returns scale `2` and a quarter
turn, of determinant `1`. -/
theorem similarity2D_det_witness :
    0 < (toMatrix2 (sampleRaw2D ⟨30, 40, 2, 1, 1, 1, 1⟩
        (sim2DCallMem sampleLocals2D ())).R).det ∧
      (sampleRaw2D ⟨30, 40, 2, 1, 1, 1, 1⟩ (sim2DCallMem sampleLocals2D ())).scale ≠ 0 ∧
      IsUnit (toMatrix3 (db_StitchSimilarity2D sampleRaw2D sampleLocals2D ()
        ![0, 0, 0, 0, 0, 0, 0, 0, 0] 30 40 2 1 1 1 1).H) ∧
      0 < (toMatrix3 (db_StitchSimilarity2D sampleRaw2D sampleLocals2D ()
        ![0, 0, 0, 0, 0, 0, 0, 0, 0] 30 40 2 1 1 1 1).H).det := by
  have hpos : 0 < (toMatrix2 (sampleRaw2D ⟨30, 40, 2, 1, 1, 1, 1⟩
      (sim2DCallMem sampleLocals2D ())).R).det := by
    simp [sampleRaw2D, toMatrix2, Matrix.det_fin_two]
  have hs : (sampleRaw2D ⟨30, 40, 2, 1, 1, 1, 1⟩
      (sim2DCallMem sampleLocals2D ())).scale ≠ 0 := by
    simp [sampleRaw2D]
  exact ⟨hpos, hs,
    (similarity2D_det sampleRaw2D sampleLocals2D ()
      ![0, 0, 0, 0, 0, 0, 0, 0, 0] 30 40 2 1 1 1 1).2.2.2.1 hpos hs⟩

end Similarity2DAlgebra

end DbImageHomography
